import Mathlib

/-!
Shallow embedding of the MinecraftWebhook program (src/main.rs, src/minecraft/mod.rs,
src/minecraft/rcon.rs) for verification of its specification.

Bytes are modelled as `Nat` (values below 256 on all byte sequences the program
produces), byte strings as `List Nat`, signed 32-bit machine integers as `Int`
with explicit reduction modulo 2^32 where the code performs wrapping operations,
and fallible Rust functions as `Except Error`.  Network reads are modelled by an
explicit list of bytes the remote side delivers; `read_exact` fails (an I/O
error) when the remaining stream is shorter than the requested count.
-/

deriving instance DecidableEq for Except

namespace RconConnection

/-- Error values as produced by the `error!` macro and the `From` conversions in
src/error.rs: each constructor corresponds to one error construction site in the
embedded code. -/
inductive Error where
  /-- An I/O error converted via `From<std::io::Error>` (transport failure). -/
  | ioError : Error
  /-- An integer conversion error via `From<TryFromIntError>`. -/
  | intConversionError : Error
  /-- A UTF-8 decoding error via `From<Utf8Error>`. -/
  | utf8Error : Error
  /-- The announced RCON response is too large (rcon.rs line 67). -/
  | responseTooLarge : Int → Error
  /-- A truncated RCON message header (rcon.rs line 113). -/
  | truncatedHeader : Error
  /-- An invalid size field in an RCON message (rcon.rs line 125). -/
  | invalidSizeField : Nat → Error
  /-- A truncated RCON message body (rcon.rs line 135). -/
  | truncatedBody : Nat → Nat → Error
  /-- An invalid RCON response ID (rcon.rs line 87). -/
  | invalidResponseId : Int → Error
deriving DecidableEq, Repr

/-- The metadata size within an RCON message, excluding the length field
(`META_SIZE` in rcon.rs: 4 id bytes + 4 type bytes + 2 terminator bytes). -/
def META_SIZE : Nat := 4 + 4 + 2

/-- The maximum size of an RCON message (`SIZE_MAX` in rcon.rs). -/
def SIZE_MAX : Int := 4110

/-- The largest value of the Rust type `i32` (`i32::MAX`). -/
def I32_MAX : Nat := 2147483647

/-- Decoding of `i32::from_le_bytes`: four bytes, least significant first, give
the two's-complement value of the 32-bit word. -/
def i32FromLeBytes (b0 b1 b2 b3 : Nat) : Int :=
  let n : Nat := (b0 + 256 * b1 + 65536 * b2 + 16777216 * b3) % 4294967296
  if n < 2147483648 then (n : Int) else (n : Int) - 4294967296

/-- Encoding of `i32::to_le_bytes`: the two's-complement bit pattern of the
value, split into four bytes, least significant first. -/
def i32ToLeBytes (x : Int) : List Nat :=
  let n : Nat := (x % 4294967296).toNat
  [n % 256, n / 256 % 256, n / 65536 % 256, n / 16777216 % 256]

/-- Validity of a byte sequence as UTF-8, following the checks performed by
`str::from_utf8` (the standard UTF-8 well-formedness conditions, excluding
surrogates and overlong forms). A continuation byte lies in 0x80..=0xBF. -/
def isCont (b : Nat) : Bool := 128 ≤ b && b ≤ 191

/-- Checks whether a byte list is well-formed UTF-8, as `str::from_utf8` does. -/
def isValidUtf8 : List Nat → Bool
  | [] => true
  | b :: rest =>
    if b ≤ 127 then isValidUtf8 rest
    else if 194 ≤ b && b ≤ 223 then
      match rest with
      | c1 :: rest2 => isCont c1 && isValidUtf8 rest2
      | [] => false
    else if b == 224 then
      match rest with
      | c1 :: c2 :: rest3 => (160 ≤ c1 && c1 ≤ 191) && isCont c2 && isValidUtf8 rest3
      | _ => false
    else if (225 ≤ b && b ≤ 236) || b == 238 || b == 239 then
      match rest with
      | c1 :: c2 :: rest3 => isCont c1 && isCont c2 && isValidUtf8 rest3
      | _ => false
    else if b == 237 then
      match rest with
      | c1 :: c2 :: rest3 => (128 ≤ c1 && c1 ≤ 159) && isCont c2 && isValidUtf8 rest3
      | _ => false
    else if b == 240 then
      match rest with
      | c1 :: c2 :: c3 :: rest4 =>
        (144 ≤ c1 && c1 ≤ 191) && isCont c2 && isCont c3 && isValidUtf8 rest4
      | _ => false
    else if 241 ≤ b && b ≤ 243 then
      match rest with
      | c1 :: c2 :: c3 :: rest4 => isCont c1 && isCont c2 && isCont c3 && isValidUtf8 rest4
      | _ => false
    else if b == 244 then
      match rest with
      | c1 :: c2 :: c3 :: rest4 =>
        (128 ≤ c1 && c1 ≤ 143) && isCont c2 && isCont c3 && isValidUtf8 rest4
      | _ => false
    else false

/-- Serialization of an RCON message (`RconConnection::serialize`): the size
field is `payload.len() + META_SIZE`, converted to `i32` by `i32::try_from`
(an integer conversion error when it exceeds `i32::MAX`), followed by the
little-endian id, the little-endian type, the payload bytes and two null
bytes. The payload is the UTF-8 byte content of the Rust `&str` argument. -/
def serialize (id type_ : Int) (payload : List Nat) : Except Error (List Nat) :=
  if payload.length + META_SIZE ≤ I32_MAX then
    let size : Int := ((payload.length + META_SIZE : Nat) : Int)
    Except.ok (i32ToLeBytes size ++ i32ToLeBytes id ++ i32ToLeBytes type_ ++ payload ++ [0, 0])
  else Except.error Error.intConversionError

/-- Embedding of `message.get(12..12 + body_len)`: the slice of `len` elements
starting at `start`, or `none` when the range does not lie inside the list. -/
def listSlice (m : List Nat) (start len : Nat) : Option (List Nat) :=
  if start + len ≤ m.length then some ((m.drop start).take len) else none

/-- Deserialization of an RCON message (`RconConnection::deserialize`): the
header pattern requires at least 12 bytes; the size field is converted to
`usize` (failing on negative values), `META_SIZE` is subtracted with
`checked_sub` (failing below 10), and a non-empty body is sliced with
`message.get(12..12 + body_len)` and decoded as UTF-8.  The decoded body is
returned as its byte content (Rust returns the `String` built from exactly
these bytes). -/
def deserialize (message : List Nat) : Except Error (Int × Int × List Nat) :=
  match message with
  | l0 :: l1 :: l2 :: l3 :: i0 :: i1 :: i2 :: i3 :: t0 :: t1 :: t2 :: t3 :: _ =>
    let size := i32FromLeBytes l0 l1 l2 l3
    let id := i32FromLeBytes i0 i1 i2 i3
    let type_ := i32FromLeBytes t0 t1 t2 t3
    if size < 0 then Except.error Error.intConversionError
    else
      let sizeN := size.toNat
      if sizeN < META_SIZE then Except.error (Error.invalidSizeField sizeN)
      else
        let bodyLen := sizeN - META_SIZE
        if 0 < bodyLen then
          match listSlice message 12 bodyLen with
          | none => Except.error (Error.truncatedBody (12 + bodyLen) message.length)
          | some bytes =>
            if isValidUtf8 bytes then Except.ok (id, type_, bytes)
            else Except.error Error.utf8Error
        else Except.ok (id, type_, [])
  | _ => Except.error Error.truncatedHeader

/-- Truth of an `Except` value being an error outcome. -/
def isErr {ε α : Type} : Except ε α → Bool
  | Except.error _ => true
  | Except.ok _ => false

/-- The body length announced by a message's declared size field:
`declared - 10` when the declared size is at least 10, and 0 when the size
field is invalid or incomplete (deserialize fails on such messages from the
header alone, so no byte beyond the header matters for them). -/
def declaredBodyLen (m : List Nat) : Nat :=
  match m with
  | l0 :: l1 :: l2 :: l3 :: _ =>
    let size := i32FromLeBytes l0 l1 l2 l3
    if size < 10 then 0 else size.toNat - 10
  | _ => 0

/-- Embedding of `read_exact` on the modelled byte stream: returns the first
`n` bytes and the remaining stream, or fails when fewer than `n` bytes are
available. -/
def readExact (stream : List Nat) (n : Nat) : Option (List Nat × List Nat) :=
  if n ≤ stream.length then some (stream.take n, stream.drop n) else none

/-- The tail of `RconConnection::transaction` after the response buffer is
filled: deserialize the response and check the response id against the
request id (rcon.rs lines 82-89). -/
def processResponse (id : Int) (response : List Nat) : Except Error (List Nat) :=
  match deserialize response with
  | Except.error e => Except.error e
  | Except.ok (responseId, _, payload) =>
    if responseId = id then Except.ok payload
    else Except.error (Error.invalidResponseId responseId)

/-- The body of `RconConnection::transaction` for a given transaction id:
serialize the request, write it (writes are assumed delivered; only the
response side is modelled), read the 4-byte size field, check
`0 <= size <= SIZE_MAX`, read exactly `size` further bytes into the buffer
`size_bytes ++ body`, then deserialize and validate the id. -/
def transactionWithId (id type_ : Int) (body stream : List Nat) : Except Error (List Nat) :=
  match serialize id type_ body with
  | Except.error e => Except.error e
  | Except.ok _request =>
    match stream with
    | s0 :: s1 :: s2 :: s3 :: rest =>
      let size := i32FromLeBytes s0 s1 s2 s3
      if 0 ≤ size ∧ size ≤ SIZE_MAX then
        match readExact rest size.toNat with
        | none => Except.error Error.ioError
        | some (bodyBytes, _) => processResponse id (s0 :: s1 :: s2 :: s3 :: bodyBytes)
      else Except.error (Error.responseTooLarge size)
    | _ => Except.error Error.ioError

/-- Interpretation of a bit pattern (a natural number, reduced modulo 2^32) as
the signed value an `AtomicI32` holding those bits returns. -/
def i32OfBits (n : Nat) : Int :=
  if n % 4294967296 < 2147483648 then ((n % 4294967296 : Nat) : Int)
  else ((n % 4294967296 : Nat) : Int) - 4294967296

/-- Full `RconConnection::transaction` including the id allocation
`ID_COUNTER.fetch_add(1, SeqCst)`: the shared counter state is passed
explicitly as the bit pattern it holds; `fetch_add` returns the previous
value and stores the wrapping successor. -/
def transaction (ctr : Nat) (type_ : Int) (body stream : List Nat) :
    Except Error (List Nat) × Nat :=
  let id := i32OfBits ctr
  (transactionWithId id type_ body stream, (ctr + 1) % 4294967296)

end RconConnection

namespace Minecraft

/-- Insertion into the blinded webhook table, modelling `BTreeMap::insert`:
an existing entry with the same key is replaced, otherwise the entry is
added.  The entry order of this association-list model is irrelevant to
lookups because `BTreeMap` keys are unique. -/
def mapInsert (k v : List Nat) : List (List Nat × List Nat) → List (List Nat × List Nat)
  | [] => [(k, v)]
  | (k1, v1) :: rest => if k1 = k then (k, v) :: rest else (k1, v1) :: mapInsert k v rest

/-- Lookup in the blinded webhook table, modelling `BTreeMap::get`. -/
def mapGet (k : List Nat) : List (List Nat × List Nat) → Option (List Nat)
  | [] => none
  | (k1, v1) :: rest => if k1 = k then some v1 else mapGet k rest

/-- The blinded digest of a name: `Sha512_256::new().chain_update(name)
.chain_update(secret).finalize()`, i.e. the hash of the name concatenated
with the secret.  The hash function itself is an external collaborator
(the sha2 crate) and is a parameter of the model; the claims only assume
it is collision-free on the digests involved. -/
def blind (hash : List Nat → List Nat) (secret name : List Nat) : List Nat :=
  hash (name ++ secret)

/-- Construction of the blinded webhook table (the `HOOKS.get_or_init`
closure in mod.rs lines 23-32): every configured (name, command) pair is
inserted under the blinded digest of its name. -/
def buildHooks (hash : List Nat → List Nat) (secret : List Nat)
    (hooks : List (List Nat × List Nat)) : List (List Nat × List Nat) :=
  hooks.foldl (fun m nc => mapInsert (blind hash secret nc.1) nc.2 m) []

/-- Resolution of a webhook command from its name (`lookup_any` in mod.rs):
hash the presented name with the secret and look the digest up in the
blinded table.  The secret and the configured hook list are passed
explicitly; in the code they are process-wide `OnceLock` values built on
first use from `getrandom` and `config.webhooks.hooks`. -/
def lookup_any (hash : List Nat → List Nat) (secret : List Nat)
    (hooks : List (List Nat × List Nat)) (name : List Nat) : Option (List Nat) :=
  mapGet (blind hash secret name) (buildHooks hash secret hooks)

/-- An HTTP response as far as the routing code manipulates it: a status
code, an optional Content-Type header value and a body.  The helpers
`new_404_notfound` with `set_content_length(0)` and friends produce a
response with the given status and an empty body. -/
structure Response where
  status : Nat
  contentType : Option (List Nat)
  body : List Nat
deriving DecidableEq, Repr

/-- The method bytes of an HTTP POST request. -/
def POST : List Nat := [80, 79, 83, 84]

/-- The method bytes of an HTTP GET request. -/
def GET : List Nat := [71, 69, 84]

/-- The bytes of the path segment "/api/". -/
def API_PRE : List Nat := [47, 97, 112, 105, 47]

/-- The bytes of the root path "/". -/
def ROOT : List Nat := [47]

/-- The bytes of the header value "text/plain". -/
def TEXT_PLAIN : List Nat := [116, 101, 120, 116, 47, 112, 108, 97, 105, 110]

/-- Embedding of the slice method `target.strip_prefix(b"/api/")`. -/
def stripApiPre (target : List Nat) : Option (List Nat) :=
  if target.take API_PRE.length = API_PRE then some (target.drop API_PRE.length) else none

/-- Embedding of the slice method `endpoint.starts_with(b"/api/")`. -/
def startsWithApiPre (target : List Nat) : Bool :=
  target.take API_PRE.length = API_PRE

/-- The webhook endpoint (`webhook` in mod.rs): deny non-POST requests with
a 405 and empty body; strip the "/api/" path base (the `expect` panic on a
target without it is modelled as `none`); resolve the webhook name (404 and
empty body on a miss); execute the RCON command, whose outcome the function
receives as the `rconExec` parameter (200 with `text/plain` body on success,
500 with empty body on failure). -/
def webhook (hash : List Nat → List Nat) (secret : List Nat)
    (hooks : List (List Nat × List Nat))
    (rconExec : List Nat → Except RconConnection.Error (List Nat))
    (method target : List Nat) : Option Response :=
  if method ≠ POST then some ⟨405, none, []⟩
  else
    match stripApiPre target with
    | none => none
    | some name =>
      match lookup_any hash secret hooks name with
      | none => some ⟨404, none, []⟩
      | some command =>
        match rconExec command with
        | Except.ok body => some ⟨200, some TEXT_PLAIN, body⟩
        | Except.error _ => some ⟨500, none, []⟩

/-- The HTTP routing (`route` in main.rs): a POST whose target starts with
"/api/" goes to the webhook endpoint; a GET for "/" serves the web-UI site
(a 200 response with the static site body, `webui::site`); every other
request gets a 404 with an empty body. -/
def route (hash : List Nat → List Nat) (secret : List Nat)
    (hooks : List (List Nat × List Nat))
    (rconExec : List Nat → Except RconConnection.Error (List Nat))
    (siteBody : List Nat) (method target : List Nat) : Option Response :=
  if method = POST ∧ startsWithApiPre target then
    webhook hash secret hooks rconExec method target
  else if method = GET ∧ target = ROOT then some ⟨200, none, siteBody⟩
  else some ⟨404, none, []⟩

end Minecraft

namespace RconConnection

/-- Decoding the little-endian bytes of a signed 32-bit value recovers the
value, for values in the `i32` range. -/
theorem i32_from_to (x : Int) (h1 : -2147483648 ≤ x) (h2 : x < 2147483648) :
    i32FromLeBytes ((x % 4294967296).toNat % 256) ((x % 4294967296).toNat / 256 % 256)
      ((x % 4294967296).toNat / 65536 % 256) ((x % 4294967296).toNat / 16777216 % 256) = x := by
  have hnn : 0 ≤ x % 4294967296 := Int.emod_nonneg x (by norm_num)
  have hlt : x % 4294967296 < 4294967296 := Int.emod_lt_of_pos x (by norm_num)
  have hcast : ((x % 4294967296).toNat : Int) = x % 4294967296 := Int.toNat_of_nonneg hnn
  simp only [i32FromLeBytes]
  split <;> omega

/-- Deserialization of a message whose size field announces `bodyLen + 10`
and whose tail after the 12 header bytes holds at least `bodyLen` bytes of
valid UTF-8 succeeds with the decoded header values and the body slice. -/
theorem deserialize_ok (l0 l1 l2 l3 i0 i1 i2 i3 t0 t1 t2 t3 : Nat) (rest : List Nat)
    (bodyLen : Nat)
    (hsv : i32FromLeBytes l0 l1 l2 l3 = ((bodyLen + 10 : Nat) : Int))
    (hrest : bodyLen ≤ rest.length)
    (hutf : isValidUtf8 (rest.take bodyLen) = true) :
    deserialize (l0 :: l1 :: l2 :: l3 :: i0 :: i1 :: i2 :: i3 :: t0 :: t1 :: t2 :: t3 :: rest) =
      Except.ok (i32FromLeBytes i0 i1 i2 i3, i32FromLeBytes t0 t1 t2 t3, rest.take bodyLen) := by
  have hdrop :
      (l0 :: l1 :: l2 :: l3 :: i0 :: i1 :: i2 :: i3 :: t0 :: t1 :: t2 :: t3 :: rest).drop 12 =
        rest := rfl
  have hlen :
      (l0 :: l1 :: l2 :: l3 :: i0 :: i1 :: i2 :: i3 :: t0 :: t1 :: t2 :: t3 :: rest).length =
        12 + rest.length := by simp; omega
  simp only [deserialize, hsv, listSlice, hdrop, hlen, META_SIZE]
  rw [if_neg (by omega)]
  simp only [Int.toNat_ofNat]
  rw [if_neg (by omega)]
  have hbl : bodyLen + 10 - (4 + 4 + 2) = bodyLen := by omega
  rw [hbl]
  by_cases hb : 0 < bodyLen
  · rw [if_pos hb, if_pos (by omega)]
    simp [hutf]
  · have hb0 : bodyLen = 0 := by omega
    rw [if_neg hb]
    simp [hb0]

/-- C6: serialize fails with the integer-conversion (encoding) error exactly
when the payload byte length plus 10 exceeds `i32::MAX`, and otherwise yields
the 4-byte little-endian size value `payload_len + 10`, the 4-byte
little-endian id, the 4-byte little-endian type, the payload bytes and two
null bytes, in that order. -/
theorem serialize_spec (id type_ : Int) (payload : List Nat) :
    (payload.length + 10 ≤ 2147483647 →
      serialize id type_ payload =
        Except.ok (i32ToLeBytes ((payload.length + 10 : Nat) : Int) ++ i32ToLeBytes id ++
          i32ToLeBytes type_ ++ payload ++ [0, 0])) ∧
    (2147483647 < payload.length + 10 →
      serialize id type_ payload = Except.error Error.intConversionError) := by
  constructor <;> intro h <;> simp only [serialize, META_SIZE, I32_MAX]
  · rw [if_pos (by omega)]
  · rw [if_neg (by omega)]

/-- Witness for serialize_spec: both branches evaluated at concrete inputs; a
payload of 2147483638 null bytes is the smallest whose size field overflows. -/
theorem serialize_spec_witness :
    serialize 1 2 [65] =
      Except.ok (i32ToLeBytes ((([65] : List Nat).length + 10 : Nat) : Int) ++ i32ToLeBytes 1 ++
        i32ToLeBytes 2 ++ [65] ++ [0, 0]) ∧
    serialize 0 0 (List.replicate 2147483638 0) = Except.error Error.intConversionError :=
  ⟨(serialize_spec 1 2 [65]).1 (by norm_num),
   (serialize_spec 0 0 (List.replicate 2147483638 0)).2
     (by rw [List.length_replicate]; norm_num)⟩

/-- C2: for every signed 32-bit id and type and every UTF-8 payload whose byte
length plus 10 fits in a signed 32-bit integer, deserializing the bytes
produced by serialize succeeds and returns exactly the original id, type and
payload. -/
theorem serialize_deserialize_roundtrip (id type_ : Int) (payload : List Nat)
    (hid1 : -2147483648 ≤ id) (hid2 : id < 2147483648)
    (ht1 : -2147483648 ≤ type_) (ht2 : type_ < 2147483648)
    (hlen : payload.length + 10 ≤ 2147483647)
    (hutf : isValidUtf8 payload = true) :
    ∃ msg, serialize id type_ payload = Except.ok msg ∧
      deserialize msg = Except.ok (id, type_, payload) := by
  refine ⟨i32ToLeBytes ((payload.length + 10 : Nat) : Int) ++ i32ToLeBytes id ++
      i32ToLeBytes type_ ++ payload ++ [0, 0], ?_, ?_⟩
  · simp only [serialize, META_SIZE, I32_MAX]
    rw [if_pos (by omega)]
  · simp only [i32ToLeBytes, List.cons_append, List.nil_append]
    rw [deserialize_ok _ _ _ _ _ _ _ _ _ _ _ _ _ payload.length
        (i32_from_to ((payload.length + 10 : Nat) : Int) (by omega) (by omega))
        (by simp)
        (by rw [List.take_left]; exact hutf)]
    rw [i32_from_to id hid1 hid2, i32_from_to type_ ht1 ht2, List.take_left]

/-- Witness for serialize_deserialize_roundtrip at id 1, type 2, payload "A". -/
theorem serialize_deserialize_roundtrip_witness :
    ∃ msg, serialize 1 2 [65] = Except.ok msg ∧ deserialize msg = Except.ok (1, 2, [65]) :=
  serialize_deserialize_roundtrip 1 2 [65] (by decide) (by decide) (by decide) (by decide)
    (by decide) (by decide)

/-- C7: deserialize fails whenever the declared length is below 10 (including
negative values and truncated headers) or the buffer is shorter than
12 + body_len, fails when the body bytes are not valid UTF-8, and otherwise
returns the id decoded from bytes 4..8, the type from bytes 8..12 and the
body decoded from bytes 12..12 + body_len. -/
theorem deserialize_spec (m : List Nat) :
    (m.length < 12 → isErr (deserialize m) = true) ∧
    (∀ l0 l1 l2 l3 i0 i1 i2 i3 t0 t1 t2 t3 rest,
      m = l0 :: l1 :: l2 :: l3 :: i0 :: i1 :: i2 :: i3 :: t0 :: t1 :: t2 :: t3 :: rest →
      (i32FromLeBytes l0 l1 l2 l3 < 10 → isErr (deserialize m) = true) ∧
      (∀ bodyLen : Nat, i32FromLeBytes l0 l1 l2 l3 = ((bodyLen + 10 : Nat) : Int) →
        (m.length < 12 + bodyLen → isErr (deserialize m) = true) ∧
        (12 + bodyLen ≤ m.length →
          (isValidUtf8 (rest.take bodyLen) = false → isErr (deserialize m) = true) ∧
          (isValidUtf8 (rest.take bodyLen) = true →
            deserialize m =
              Except.ok (i32FromLeBytes i0 i1 i2 i3, i32FromLeBytes t0 t1 t2 t3,
                rest.take bodyLen))))) := by
  constructor
  · intro hshort
    rcases m with _ | ⟨b0, m⟩; · rfl
    rcases m with _ | ⟨b1, m⟩; · rfl
    rcases m with _ | ⟨b2, m⟩; · rfl
    rcases m with _ | ⟨b3, m⟩; · rfl
    rcases m with _ | ⟨b4, m⟩; · rfl
    rcases m with _ | ⟨b5, m⟩; · rfl
    rcases m with _ | ⟨b6, m⟩; · rfl
    rcases m with _ | ⟨b7, m⟩; · rfl
    rcases m with _ | ⟨b8, m⟩; · rfl
    rcases m with _ | ⟨b9, m⟩; · rfl
    rcases m with _ | ⟨b10, m⟩; · rfl
    rcases m with _ | ⟨b11, m⟩; · rfl
    exfalso
    simp only [List.length_cons] at hshort
    omega
  · intro l0 l1 l2 l3 i0 i1 i2 i3 t0 t1 t2 t3 rest hm
    subst hm
    have hrlen :
        (l0 :: l1 :: l2 :: l3 :: i0 :: i1 :: i2 :: i3 :: t0 :: t1 :: t2 :: t3 :: rest).length =
          12 + rest.length := by
      simp only [List.length_cons]; omega
    have hdrop :
        (l0 :: l1 :: l2 :: l3 :: i0 :: i1 :: i2 :: i3 :: t0 :: t1 :: t2 :: t3 :: rest).drop 12 =
          rest := rfl
    refine ⟨?_, ?_⟩
    · intro hlt
      by_cases hneg : i32FromLeBytes l0 l1 l2 l3 < 0
      · simp only [deserialize]
        rw [if_pos hneg]
        rfl
      · simp only [deserialize]
        rw [if_neg hneg, if_pos (show (i32FromLeBytes l0 l1 l2 l3).toNat < META_SIZE by
          simp only [META_SIZE]; omega)]
        rfl
    · intro bodyLen hsv
      refine ⟨?_, ?_⟩
      · intro hshort
        have hbpos : 0 < bodyLen := by omega
        simp only [deserialize, hsv, Int.toNat_ofNat]
        rw [if_neg (by omega),
          if_neg (show ¬ (bodyLen + 10 < META_SIZE) by simp only [META_SIZE]; omega),
          show bodyLen + 10 - META_SIZE = bodyLen by simp only [META_SIZE]; omega,
          if_pos hbpos]
        simp only [listSlice, hrlen]
        rw [if_neg (by omega)]
        rfl
      · intro hlong
        have hrest : bodyLen ≤ rest.length := by omega
        refine ⟨?_, ?_⟩
        · intro hbad
          by_cases hbpos : 0 < bodyLen
          · simp only [deserialize, hsv, Int.toNat_ofNat]
            rw [if_neg (by omega),
              if_neg (show ¬ (bodyLen + 10 < META_SIZE) by simp only [META_SIZE]; omega),
              show bodyLen + 10 - META_SIZE = bodyLen by simp only [META_SIZE]; omega,
              if_pos hbpos]
            simp only [listSlice, hrlen, hdrop]
            rw [if_pos (by omega)]
            simp only [hbad]
            rfl
          · exfalso
            have hb0 : bodyLen = 0 := by omega
            subst hb0
            simp only [List.take_zero] at hbad
            exact (by decide : ¬ (isValidUtf8 [] = false)) hbad
        · intro hgood
          exact deserialize_ok l0 l1 l2 l3 i0 i1 i2 i3 t0 t1 t2 t3 rest bodyLen hsv hrest hgood

/-- Witness for deserialize_spec: a declared size of 9 is rejected, and a
well-formed message with declared size 12 and body "AB" parses. -/
theorem deserialize_spec_witness :
    isErr (deserialize [9, 0, 0, 0, 1, 0, 0, 0, 2, 0, 0, 0]) = true ∧
    deserialize [12, 0, 0, 0, 5, 0, 0, 0, 6, 0, 0, 0, 65, 66] = Except.ok (5, 6, [65, 66]) :=
  ⟨((deserialize_spec [9, 0, 0, 0, 1, 0, 0, 0, 2, 0, 0, 0]).2
      9 0 0 0 1 0 0 0 2 0 0 0 [] rfl).1 (by decide),
   ((((deserialize_spec [12, 0, 0, 0, 5, 0, 0, 0, 6, 0, 0, 0, 65, 66]).2
      12 0 0 0 5 0 0 0 6 0 0 0 [65, 66] rfl).2 2 (by decide)).2 (by decide)).2 (by decide)⟩

/-- The declared body length only depends on the first four bytes. -/
theorem declaredBodyLen_append (p r : List Nat) (h : 4 ≤ p.length) :
    declaredBodyLen (p ++ r) = declaredBodyLen p := by
  rcases p with _ | ⟨l0, p⟩; · simp at h
  rcases p with _ | ⟨l1, p⟩; · simp at h
  rcases p with _ | ⟨l2, p⟩; · simp at h
  rcases p with _ | ⟨l3, p⟩; · simp at h
  rfl

/-- Appending bytes beyond position `12 + declaredBodyLen` does not change the
result of deserialize. -/
theorem deserialize_append (p r : List Nat) (h : 12 + declaredBodyLen p ≤ p.length) :
    deserialize (p ++ r) = deserialize p := by
  have hms : META_SIZE = 10 := rfl
  have hlen12 : 12 ≤ p.length := by omega
  rcases p with _ | ⟨l0, p⟩; · simp at hlen12
  rcases p with _ | ⟨l1, p⟩; · simp at hlen12
  rcases p with _ | ⟨l2, p⟩; · simp at hlen12
  rcases p with _ | ⟨l3, p⟩; · simp at hlen12
  rcases p with _ | ⟨i0, p⟩; · simp at hlen12
  rcases p with _ | ⟨i1, p⟩; · simp at hlen12
  rcases p with _ | ⟨i2, p⟩; · simp at hlen12
  rcases p with _ | ⟨i3, p⟩; · simp at hlen12
  rcases p with _ | ⟨t0, p⟩; · simp at hlen12
  rcases p with _ | ⟨t1, p⟩; · simp at hlen12
  rcases p with _ | ⟨t2, p⟩; · simp at hlen12
  rcases p with _ | ⟨t3, p⟩; · simp at hlen12
  simp only [declaredBodyLen, List.length_cons] at h
  simp only [List.cons_append]
  by_cases hneg : i32FromLeBytes l0 l1 l2 l3 < 0
  · simp only [deserialize]
    rw [if_pos hneg, if_pos hneg]
  · by_cases hsmall : (i32FromLeBytes l0 l1 l2 l3).toNat < META_SIZE
    · simp only [deserialize]
      rw [if_neg hneg, if_neg hneg, if_pos hsmall, if_pos hsmall]
    · have h10 : ¬ (i32FromLeBytes l0 l1 l2 l3 < 10) := by
        rw [hms] at hsmall; omega
      rw [if_neg h10] at h
      simp only [deserialize]
      rw [if_neg hneg, if_neg hneg, if_neg hsmall, if_neg hsmall]
      by_cases hb : 0 < (i32FromLeBytes l0 l1 l2 l3).toNat - META_SIZE
      · rw [if_pos hb, if_pos hb]
        have hble : (i32FromLeBytes l0 l1 l2 l3).toNat - META_SIZE ≤ p.length := by
          rw [hms]; omega
        have hd1 :
            (l0 :: l1 :: l2 :: l3 :: i0 :: i1 :: i2 :: i3 ::
              t0 :: t1 :: t2 :: t3 :: (p ++ r)).drop 12 = p ++ r := rfl
        have hd2 :
            (l0 :: l1 :: l2 :: l3 :: i0 :: i1 :: i2 :: i3 ::
              t0 :: t1 :: t2 :: t3 :: p).drop 12 = p := rfl
        simp only [listSlice, List.length_cons, List.length_append, hd1, hd2]
        rw [if_pos (by omega), if_pos (by omega), List.take_append_of_le_length hble]
      · rw [if_neg hb, if_neg hb]

/-- C9: deserialize never inspects a byte past position `12 + body_len`:
two buffers of sufficient length that agree up to that position deserialize
identically; in particular a message whose final two bytes are not the null
terminators of the wire format still parses successfully. -/
theorem deserialize_no_lookahead :
    (∀ b1 b2 : List Nat, 12 + declaredBodyLen b1 ≤ b1.length →
      12 + declaredBodyLen b1 ≤ b2.length →
      b1.take (12 + declaredBodyLen b1) = b2.take (12 + declaredBodyLen b1) →
      deserialize b1 = deserialize b2) ∧
    deserialize [12, 0, 0, 0, 1, 0, 0, 0, 2, 0, 0, 0, 65, 66] = Except.ok (1, 2, [65, 66]) := by
  constructor
  · intro b1 b2 h1 h2 hagree
    have hp1 : b1.take (12 + declaredBodyLen b1) ++ b1.drop (12 + declaredBodyLen b1) = b1 :=
      List.take_append_drop _ _
    have hp2 : b2.take (12 + declaredBodyLen b1) ++ b2.drop (12 + declaredBodyLen b1) = b2 :=
      List.take_append_drop _ _
    have hplen : (b1.take (12 + declaredBodyLen b1)).length = 12 + declaredBodyLen b1 := by
      rw [List.length_take]; omega
    have hdbl : declaredBodyLen (b1.take (12 + declaredBodyLen b1)) = declaredBodyLen b1 := by
      conv_rhs => rw [← hp1]
      rw [declaredBodyLen_append _ _ (by omega)]
    have hcond : 12 + declaredBodyLen (b1.take (12 + declaredBodyLen b1)) ≤
        (b1.take (12 + declaredBodyLen b1)).length := by rw [hdbl, hplen]
    calc deserialize b1
        = deserialize (b1.take (12 + declaredBodyLen b1) ++
            b1.drop (12 + declaredBodyLen b1)) := by rw [hp1]
      _ = deserialize (b1.take (12 + declaredBodyLen b1)) := deserialize_append _ _ hcond
      _ = deserialize (b2.take (12 + declaredBodyLen b1) ++
            b2.drop (12 + declaredBodyLen b1)) := by
            rw [← hagree]
            exact (deserialize_append _ _ hcond).symm
      _ = deserialize b2 := by rw [hp2]
  · decide

/-- Witness for deserialize_no_lookahead: two buffers agreeing on their first
14 bytes (12 header bytes plus body length 2) deserialize identically even
though their trailing bytes differ. -/
theorem deserialize_no_lookahead_witness :
    deserialize [12, 0, 0, 0, 1, 0, 0, 0, 2, 0, 0, 0, 65, 66, 0, 0] =
      deserialize [12, 0, 0, 0, 1, 0, 0, 0, 2, 0, 0, 0, 65, 66, 9, 9] :=
  deserialize_no_lookahead.1 [12, 0, 0, 0, 1, 0, 0, 0, 2, 0, 0, 0, 65, 66, 0, 0]
    [12, 0, 0, 0, 1, 0, 0, 0, 2, 0, 0, 0, 65, 66, 9, 9] (by decide) (by decide) (by decide)

/-- Serialization succeeds whenever the payload length plus the metadata size
fits in the signed 32-bit range. -/
theorem serialize_isOk (id type_ : Int) (payload : List Nat)
    (h : payload.length + 10 ≤ 2147483647) :
    serialize id type_ payload =
      Except.ok (i32ToLeBytes ((payload.length + 10 : Nat) : Int) ++ i32ToLeBytes id ++
        i32ToLeBytes type_ ++ payload ++ [0, 0]) := by
  simp only [serialize, META_SIZE, I32_MAX]
  rw [if_pos (by omega)]

/-- C3: after decoding the 4-byte little-endian size field, a declared size
that is negative or above 4110 is rejected with the too-large protocol error
without reading anything further (the outcome is the same for every remainder
of the stream, including an empty one); an accepted size leads to reading
exactly that many further bytes: a shorter remainder is a transport error,
and otherwise the outcome is computed from precisely the first `size` bytes
after the size field. -/
theorem transaction_size_check (id type_ : Int) (body : List Nat)
    (hbody : body.length + 10 ≤ 2147483647)
    (sb0 sb1 sb2 sb3 : Nat) (rest : List Nat) :
    (¬ (0 ≤ i32FromLeBytes sb0 sb1 sb2 sb3 ∧ i32FromLeBytes sb0 sb1 sb2 sb3 ≤ 4110) →
      transactionWithId id type_ body (sb0 :: sb1 :: sb2 :: sb3 :: rest) =
        Except.error (Error.responseTooLarge (i32FromLeBytes sb0 sb1 sb2 sb3))) ∧
    (0 ≤ i32FromLeBytes sb0 sb1 sb2 sb3 → i32FromLeBytes sb0 sb1 sb2 sb3 ≤ 4110 →
      (rest.length < (i32FromLeBytes sb0 sb1 sb2 sb3).toNat →
        transactionWithId id type_ body (sb0 :: sb1 :: sb2 :: sb3 :: rest) =
          Except.error Error.ioError) ∧
      ((i32FromLeBytes sb0 sb1 sb2 sb3).toNat ≤ rest.length →
        transactionWithId id type_ body (sb0 :: sb1 :: sb2 :: sb3 :: rest) =
          processResponse id (sb0 :: sb1 :: sb2 :: sb3 ::
            rest.take (i32FromLeBytes sb0 sb1 sb2 sb3).toNat))) := by
  have hser := serialize_isOk id type_ body hbody
  have hsm : SIZE_MAX = 4110 := rfl
  refine ⟨?_, ?_⟩
  · intro hbad
    simp only [transactionWithId, hser, hsm]
    rw [if_neg hbad]
  · intro h0 h1
    refine ⟨?_, ?_⟩
    · intro hshort
      simp only [transactionWithId, hser, hsm]
      rw [if_pos ⟨h0, h1⟩]
      simp only [readExact]
      rw [if_neg (by omega)]
    · intro hlen
      simp only [transactionWithId, hser, hsm]
      rw [if_pos ⟨h0, h1⟩]
      simp only [readExact]
      rw [if_pos hlen]

/-- Witness for transaction_size_check: a declared size of 5000 is rejected
with the too-large error even on an empty remainder, and a declared size of
10 with exactly 10 remaining bytes reaches response parsing. -/
theorem transaction_size_check_witness :
    transactionWithId 0 2 [] [136, 19, 0, 0] =
      Except.error (Error.responseTooLarge 5000) ∧
    transactionWithId 0 2 [] [10, 0, 0, 0, 0, 0, 0, 0, 2, 0, 0, 0, 0, 0] =
      processResponse 0 [10, 0, 0, 0, 0, 0, 0, 0, 2, 0, 0, 0, 0, 0] := by
  refine ⟨?_, ?_⟩
  · exact (transaction_size_check 0 2 [] (by decide) 136 19 0 0 []).1 (by decide)
  · have h := ((transaction_size_check 0 2 [] (by decide) 10 0 0 0
      [0, 0, 0, 0, 2, 0, 0, 0, 0, 0]).2 (by decide) (by decide)).2 (by decide)
    simpa using h

/-- C5: if the id parsed from an otherwise well-formed response differs from
the id sent with the request, the transaction fails with the invalid-id
protocol error and the response payload is not returned. -/
theorem transaction_id_mismatch (id type_ : Int) (body : List Nat)
    (sb0 sb1 sb2 sb3 : Nat) (rest : List Nat) (rid rtype : Int) (payload : List Nat)
    (hbody : body.length + 10 ≤ 2147483647)
    (h0 : 0 ≤ i32FromLeBytes sb0 sb1 sb2 sb3)
    (h1 : i32FromLeBytes sb0 sb1 sb2 sb3 ≤ 4110)
    (hlen : (i32FromLeBytes sb0 sb1 sb2 sb3).toNat ≤ rest.length)
    (hde : deserialize (sb0 :: sb1 :: sb2 :: sb3 ::
        rest.take (i32FromLeBytes sb0 sb1 sb2 sb3).toNat) = Except.ok (rid, rtype, payload))
    (hne : rid ≠ id) :
    transactionWithId id type_ body (sb0 :: sb1 :: sb2 :: sb3 :: rest) =
      Except.error (Error.invalidResponseId rid) := by
  have hser := serialize_isOk id type_ body hbody
  have hsm : SIZE_MAX = 4110 := rfl
  simp only [transactionWithId, hser, hsm]
  rw [if_pos ⟨h0, h1⟩]
  simp only [readExact]
  rw [if_pos hlen]
  simp only [processResponse, hde]
  rw [if_neg hne]

/-- Witness for transaction_id_mismatch: the request is sent with id 0 but
the response carries id 1, so the transaction fails with the invalid-id
error. -/
theorem transaction_id_mismatch_witness :
    transactionWithId 0 2 [] [10, 0, 0, 0, 1, 0, 0, 0, 2, 0, 0, 0, 0, 0] =
      Except.error (Error.invalidResponseId 1) :=
  transaction_id_mismatch 0 2 [] 10 0 0 0 [1, 0, 0, 0, 2, 0, 0, 0, 0, 0] 1 2 []
    (by decide) (by decide) (by decide) (by decide) (by decide) (by decide)

/-- C10: transaction is total on every response stream, producing Ok or Err
(never a panic); once the declared size passes the 0..=4110 check, the buffer
handed to response parsing is exactly the four size bytes followed by the
first `size` remainder bytes, its length is exactly `4 + size`, and
`4 + size` is bounded by 4114, so the slice `response[4..]` is in bounds and
the size arithmetic cannot overflow. -/
theorem transaction_no_panic (id type_ : Int) (body s : List Nat) :
    ((∃ r, transactionWithId id type_ body s = Except.ok r) ∨
      (∃ e, transactionWithId id type_ body s = Except.error e)) ∧
    (∀ sb0 sb1 sb2 sb3 rest, s = sb0 :: sb1 :: sb2 :: sb3 :: rest →
      0 ≤ i32FromLeBytes sb0 sb1 sb2 sb3 → i32FromLeBytes sb0 sb1 sb2 sb3 ≤ 4110 →
      4 + (i32FromLeBytes sb0 sb1 sb2 sb3).toNat ≤ 4114 ∧
      (body.length + 10 ≤ 2147483647 →
        (i32FromLeBytes sb0 sb1 sb2 sb3).toNat ≤ rest.length →
        (sb0 :: sb1 :: sb2 :: sb3 ::
            rest.take (i32FromLeBytes sb0 sb1 sb2 sb3).toNat).length =
          4 + (i32FromLeBytes sb0 sb1 sb2 sb3).toNat ∧
        transactionWithId id type_ body s =
          processResponse id (sb0 :: sb1 :: sb2 :: sb3 ::
            rest.take (i32FromLeBytes sb0 sb1 sb2 sb3).toNat))) := by
  refine ⟨?_, ?_⟩
  · cases h : transactionWithId id type_ body s with
    | ok r => exact Or.inl ⟨r, rfl⟩
    | error e => exact Or.inr ⟨e, rfl⟩
  · intro sb0 sb1 sb2 sb3 rest hs h0 h1
    subst hs
    refine ⟨by omega, ?_⟩
    intro hbody hlen
    refine ⟨?_, ?_⟩
    · simp only [List.length_cons, List.length_take]
      omega
    · have hser := serialize_isOk id type_ body hbody
      have hsm : SIZE_MAX = 4110 := rfl
      simp only [transactionWithId, hser, hsm]
      rw [if_pos ⟨h0, h1⟩]
      simp only [readExact]
      rw [if_pos hlen]

/-- Witness for transaction_no_panic on a stream announcing size 10. -/
theorem transaction_no_panic_witness :
    4 + (i32FromLeBytes 10 0 0 0).toNat ≤ 4114 ∧
    transactionWithId 0 2 [] [10, 0, 0, 0, 0, 0, 0, 0, 2, 0, 0, 0, 0, 0] =
      processResponse 0 [10, 0, 0, 0, 0, 0, 0, 0, 2, 0, 0, 0, 0, 0] := by
  have h := (transaction_no_panic 0 2 [] [10, 0, 0, 0, 0, 0, 0, 0, 2, 0, 0, 0, 0, 0]).2
    10 0 0 0 [0, 0, 0, 0, 2, 0, 0, 0, 0, 0] rfl (by decide) (by decide)
  refine ⟨h.1, ?_⟩
  have h2 := (h.2 (by decide) (by decide)).2
  simpa using h2

/-- C8: every transaction allocates its id by exactly one fetch-and-add on
the single shared 32-bit counter: the id is the signed interpretation of the
counter bits before the increment, the stored bits are the wrapping successor
modulo 2^32, the id always lies in the signed 32-bit range (the counter is
never widened), and at the wrap boundary the bits 2^32 - 1 (id -1) step back
to 0. -/
theorem transaction_id_counter (ctr : Nat) (type_ : Int) (body stream : List Nat) :
    transaction ctr type_ body stream =
      (transactionWithId (i32OfBits ctr) type_ body stream, (ctr + 1) % 4294967296) ∧
    -2147483648 ≤ i32OfBits ctr ∧ i32OfBits ctr < 2147483648 ∧
    (transaction 4294967295 type_ body stream).2 = 0 ∧ i32OfBits 4294967295 = -1 := by
  refine ⟨rfl, ?_, ?_, rfl, by decide⟩
  · simp only [i32OfBits]
    split <;> omega
  · simp only [i32OfBits]
    split <;> omega

end RconConnection

namespace Minecraft

/-- Lookup after insertion: the inserted key maps to the inserted value, and
any other key is unaffected. -/
theorem mapGet_insert (k kI v : List Nat) (m : List (List Nat × List Nat)) :
    mapGet k (mapInsert kI v m) = if kI = k then some v else mapGet k m := by
  induction m with
  | nil => simp [mapInsert, mapGet]
  | cons hd tl ih =>
    obtain ⟨k2, v2⟩ := hd
    by_cases h2 : k2 = kI
    · subst h2
      by_cases hk : k2 = k <;> simp [mapInsert, mapGet, hk]
    · by_cases hk : k2 = k
      · subst hk
        have hne : ¬ kI = k2 := fun hh => h2 hh.symm
        simp [mapInsert, mapGet, h2, hne]
      · simp [mapInsert, mapGet, h2, hk, ih]

/-- Folding the insertions of hooks whose blinded digests all differ from `d`
leaves the entry of `d` unchanged. -/
theorem mapGet_foldl_notmem (hash : List Nat → List Nat) (secret d : List Nat)
    (hooks : List (List Nat × List Nat)) (acc : List (List Nat × List Nat))
    (hno : ∀ nc ∈ hooks, blind hash secret nc.1 ≠ d) :
    mapGet d (hooks.foldl (fun m nc => mapInsert (blind hash secret nc.1) nc.2 m) acc) =
      mapGet d acc := by
  induction hooks generalizing acc with
  | nil => rfl
  | cons hd tl ih =>
    simp only [List.foldl_cons]
    rw [ih _ (fun nc h => hno nc (List.mem_cons_of_mem _ h)), mapGet_insert,
      if_neg (hno hd (List.mem_cons_self _ _))]

/-- C4: assuming the blinded digests of the presented name and the configured
names are collision-free, lookup resolves every configured (name, command)
pair to exactly its command, and resolves any name outside the configured
set to none. -/
theorem lookup_any_correct (hash : List Nat → List Nat) (secret name : List Nat)
    (hooks : List (List Nat × List Nat))
    (hnodup : (hooks.map Prod.fst).Nodup)
    (hinj : ∀ n1 ∈ name :: hooks.map Prod.fst, ∀ n2 ∈ name :: hooks.map Prod.fst,
      blind hash secret n1 = blind hash secret n2 → n1 = n2) :
    (∀ command, (name, command) ∈ hooks →
      lookup_any hash secret hooks name = some command) ∧
    (name ∉ hooks.map Prod.fst → lookup_any hash secret hooks name = none) := by
  constructor
  · intro command hmem
    obtain ⟨s, t, rfl⟩ := List.append_of_mem hmem
    have hname_notin_t : name ∉ t.map Prod.fst := by
      have hmap : ((s ++ (name, command) :: t).map Prod.fst) =
          s.map Prod.fst ++ name :: t.map Prod.fst := by
        simp
      rw [hmap] at hnodup
      have hright := hnodup.of_append_right
      exact (List.nodup_cons.mp hright).1
    have hno_t : ∀ nc ∈ t, blind hash secret nc.1 ≠ blind hash secret name := by
      intro nc hnc hcoll
      have h1 : nc.1 ∈ name :: (s ++ (name, command) :: t).map Prod.fst := by
        apply List.mem_cons_of_mem
        exact List.mem_map_of_mem Prod.fst (by simp [hnc])
      have h2 : name ∈ name :: (s ++ (name, command) :: t).map Prod.fst :=
        List.mem_cons_self _ _
      have : nc.1 = name := hinj nc.1 h1 name h2 hcoll
      exact hname_notin_t (this ▸ List.mem_map_of_mem Prod.fst hnc)
    simp only [lookup_any, buildHooks, List.foldl_append, List.foldl_cons]
    rw [mapGet_foldl_notmem hash secret _ t _ hno_t, mapGet_insert, if_pos rfl]
  · intro hnotin
    have hno : ∀ nc ∈ hooks, blind hash secret nc.1 ≠ blind hash secret name := by
      intro nc hnc hcoll
      have h1 : nc.1 ∈ name :: hooks.map Prod.fst :=
        List.mem_cons_of_mem _ (List.mem_map_of_mem Prod.fst hnc)
      have h2 : name ∈ name :: hooks.map Prod.fst := List.mem_cons_self _ _
      have : nc.1 = name := hinj nc.1 h1 name h2 hcoll
      exact hnotin (this ▸ List.mem_map_of_mem Prod.fst hnc)
    simp only [lookup_any, buildHooks]
    rw [mapGet_foldl_notmem hash secret _ hooks _ hno]
    rfl

/-- Witness for lookup_any_correct with the identity hash (collision-free on
the concrete names involved): a configured name resolves to its command and
an unconfigured name resolves to none. -/
theorem lookup_any_correct_witness :
    lookup_any (fun l => l) [7] [([1], [10]), ([2], [20])] [1] = some [10] ∧
    lookup_any (fun l => l) [7] [([1], [10]), ([2], [20])] [3] = none :=
  ⟨(lookup_any_correct (fun l => l) [7] [1] [([1], [10]), ([2], [20])] (by decide)
      (by decide)).1 [10] (by decide),
   (lookup_any_correct (fun l => l) [7] [3] [([1], [10]), ([2], [20])] (by decide)
      (by decide)).2 (by decide)⟩

/-- C1 (divergence witness): on the request `GET /api/restart` the routing
falls through to the catch-all arm and produces a 404 with an empty body —
not the 405 the specification demands — because only POST requests on the
"/api/" base are forwarded to the webhook handler; the webhook handler's own
non-POST guard, which does produce the specified 405 with an empty body, is
unreachable through route. -/
theorem route_get_api_is_404 :
    route (fun l => l) [] [] (fun _ => Except.ok []) [] GET
        [47, 97, 112, 105, 47, 114, 101, 115, 116, 97, 114, 116] =
      some ⟨404, none, []⟩ ∧
    webhook (fun l => l) [] [] (fun _ => Except.ok []) GET
        [47, 97, 112, 105, 47, 114, 101, 115, 116, 97, 114, 116] =
      some ⟨405, none, []⟩ := by
  decide

end Minecraft

example : RconConnection.serialize 1 2 [65] =
    Except.ok [11, 0, 0, 0, 1, 0, 0, 0, 2, 0, 0, 0, 65, 0, 0] := by decide

example : RconConnection.deserialize [11, 0, 0, 0, 1, 0, 0, 0, 2, 0, 0, 0, 65, 0, 0] =
    Except.ok (1, 2, [65]) := by decide

example : RconConnection.i32FromLeBytes 255 255 255 255 = -1 := by decide

example : RconConnection.i32ToLeBytes (-1) = [255, 255, 255, 255] := by decide
